import Mathlib

/-!
# A verification model of `demos/common/processing/pipeline_base.cpp`

This file gives a shallow embedding of the asynchronous pipeline scheduler
`PipelineBase` (submission with ever-increasing sequence numbers, a completion
buffer keyed by sequence number, first-fault capture, in-order retrieval, and
performance counters) and proves the specified properties about it.

Modelling choices:
* `std::chrono::steady_clock` time points are integers (nanosecond counts since
  the epoch); a count of `0` models an unset (default-constructed) time point.
* `int64_t` is `Int` together with explicit two's-complement wrapping
  (`int64Wrap`); the counter increment `x++; if (x < 0) x = 0;` becomes
  `incrementFrameId`.
* `std::map<int64_t, RequestResult>` is an association list with unique keys;
  `emplace` inserts only when the key is absent, `erase` removes the found
  entry, `find` is a point lookup.
* A captured `std::exception_ptr` is an opaque identity (`Exn := Nat`);
  rethrowing preserves that identity.
* The completion callback registered by `submitRequest` runs later, on an
  executor thread; we model the in-flight unit as a `PendingRequest` and the
  callback body as `runCallback`, invoked by a `complete` event.  The outcome
  of the fallible extraction step (`GetBlob` + blob copy) is an
  `Except Exn Nat` parameter: `ok payload` for a successful copy, `error e`
  for a handler failure captured by the `catch (...)` block.
* `double` arithmetic for the FPS field is modelled over `ℚ`.
* Interleaving is modelled by a list of `Event`s (submissions, completions in
  arbitrary order, retrievals) consumed by `runWithObs`.
-/

/-- Identity of a captured exception (`std::exception_ptr`). -/
abbrev Exn := Nat

/-- `PipelineBase::RequestResult`: sequence number, opaque output blob
(`none` models a null `Blob::Ptr`), submission time point. -/
structure RequestResult where
  frameId : Int
  output : Option Nat
  startTime : Int
deriving DecidableEq, Repr

/-- A default-constructed `RequestResult` (the empty sentinel returned by
`getResult` when nothing is ready): null output blob, zero fields. -/
def RequestResult.empty : RequestResult :=
  { frameId := 0, output := none, startTime := 0 }

/-- `PipelineBase::PerformanceInfo` as used by the source: sampled in-use
count, session start time (0 = unset), cumulative latency, frames count and
the FPS value recomputed at each successful retrieval. -/
structure PerformanceInfo where
  numRequestsInUse : Nat
  startTime : Int
  latencySum : Int
  framesCount : Nat
  FPS : ℚ
deriving DecidableEq, Repr

/-- Errors thrown synchronously by `submitRequest`
(`std::invalid_argument`). -/
inductive PipelineError where
  | invalidArgument (msg : String)
deriving DecidableEq, Repr

/-- Modelled from the spec: the Executor Slot Pool (`RequestsPool`,
declared in `requests_pool.h`, which is outside the provided sources) of
spec §4.1: a fixed number of reusable slots, each `Idle` or `InUse`
(`true` = InUse), with non-blocking acquisition, release and an in-use
count. -/
structure RequestsPool where
  slots : List Bool
deriving DecidableEq, Repr

/-- Modelled from the spec: `inUseCount()` — current count of InUse slots. -/
def RequestsPool.getInUseRequestsCount (p : RequestsPool) : Nat :=
  p.slots.count true

/-- Modelled from the spec: `release(slot)` — marks slot `r` Idle. -/
def RequestsPool.setRequestIdle (p : RequestsPool) (r : Nat) : RequestsPool :=
  ⟨p.slots.set r false⟩

/-- Modelled from the spec: marking a slot InUse upon acquisition. -/
def RequestsPool.setRequestBusy (p : RequestsPool) (r : Nat) : RequestsPool :=
  ⟨p.slots.set r true⟩

/-- Index of the first `false` (Idle) entry of a slot-status list. -/
def idleIdx : List Bool → Option Nat
  | [] => none
  | b :: rest => if b then (idleIdx rest).map (fun i => i + 1) else some 0

/-- Modelled from the spec: `acquireIdleOrNull()` — index of an idle slot,
or `none` when the pool is exhausted. -/
def RequestsPool.findIdleRequest (p : RequestsPool) : Option Nat :=
  idleIdx p.slots

/-- A submitted unit of work whose completion callback has not run yet: the
values the registered closure captures (`frameID`, `frameStartTime`, the
request handle). -/
structure PendingRequest where
  frameId : Int
  startTime : Int
  request : Nat
deriving DecidableEq, Repr

/-- The state of a `PipelineBase` object: both sequence counters, the
completion buffer, the captured first fault, the performance counters, the
slot pool, the configured output name, and the set of in-flight units. -/
structure PipelineState where
  inputFrameId : Int
  outputFrameId : Int
  completedRequestResults : List (Int × RequestResult)
  callbackException : Option Exn
  perfInfo : PerformanceInfo
  requestsPool : RequestsPool
  outputName : String
  pending : List PendingRequest
deriving DecidableEq, Repr

/-! ## The completion buffer as a `std::map` -/

/-- `map::find`: the value stored under key `k`, if any. -/
def mapFind (m : List (Int × RequestResult)) (k : Int) : Option RequestResult :=
  (m.find? (fun kv => kv.1 == k)).map (fun kv => kv.2)

/-- Whether key `k` is present. -/
def mapContains (m : List (Int × RequestResult)) (k : Int) : Bool :=
  (m.find? (fun kv => kv.1 == k)).isSome

/-- `map::emplace`: inserts `(k, v)` only when no entry with key `k`
exists; otherwise the map is left unchanged and `v` is dropped. -/
def mapEmplace (m : List (Int × RequestResult)) (k : Int) (v : RequestResult) :
    List (Int × RequestResult) :=
  if mapContains m k then m else m ++ [(k, v)]

/-- `map::erase(it)` on the entry found for key `k` (keys are unique). -/
def mapErase (m : List (Int × RequestResult)) (k : Int) : List (Int × RequestResult) :=
  m.filter (fun kv => kv.1 != k)

/-! ## 64-bit counters -/

/-- Two's-complement wrap of an integer into `[-2^63, 2^63)`. -/
def int64Wrap (x : Int) : Int :=
  (x + 2 ^ 63) % 2 ^ 64 - 2 ^ 63

/-- The counter update `id++; if (id < 0) id = 0;` on an `int64_t`:
increment with two's-complement wrap, then clamp a negative value to 0. -/
def incrementFrameId (x : Int) : Int :=
  let y := int64Wrap (x + 1)
  if y < 0 then 0 else y

/-- `duration_cast<milliseconds>` on a nanosecond count: division truncating
toward zero. -/
def millisecondsOf (d : Int) : Int :=
  d.tdiv 1000000

/-! ## The operations of `PipelineBase` -/

/-- `PipelineBase::waitForData`'s wait predicate: a fault was captured, or
some slot is in use, or a completed result is pending. -/
def waitPredicate (s : PipelineState) : Bool :=
  s.callbackException.isSome || (s.requestsPool.getInUseRequestsCount != 0)
    || !s.completedRequestResults.isEmpty

/-- `PipelineBase::waitForData`: blocks until `waitPredicate` holds (`none`
models a call that has not returned yet), then rethrows the captured
exception if one is pending, else returns normally. -/
def waitForData (s : PipelineState) : Option (Except Exn Unit) :=
  if waitPredicate s then
    some (match s.callbackException with
          | some e => Except.error e
          | none => Except.ok ())
  else none

/-- `PipelineBase::submitRequest` up to the registration of the completion
callback: samples `numRequestsInUse`, throws `invalid_argument` when
`outputName` is empty, records the session start time on the first
submission, captures `frameID = inputFrameId`, registers the completion
closure (a new `PendingRequest`), wrap-increments `inputFrameId`, starts the
request and returns `frameID`.  The state is returned alongside the result
also on error, since the mutations made before a throw persist. -/
def submitRequest (s : PipelineState) (request : Nat) (now : Int) :
    Except PipelineError Int × PipelineState :=
  let s0 := { s with perfInfo := { s.perfInfo with
                numRequestsInUse := s.requestsPool.getInUseRequestsCount } }
  if s0.outputName = "" then
    (Except.error (PipelineError.invalidArgument "outputName values is not set."), s0)
  else
    let frameStartTime := now
    let s1 := if s0.perfInfo.startTime = 0 then
        { s0 with perfInfo := { s0.perfInfo with startTime := frameStartTime } }
      else s0
    let frameID := s1.inputFrameId
    let s2 := { s1 with
      pending := s1.pending ++ [⟨frameID, frameStartTime, request⟩],
      inputFrameId := incrementFrameId s1.inputFrameId }
    (Except.ok frameID, s2)

/-- The body of the completion callback registered by `submitRequest`, for
the pending unit `p`: on a successful extraction (`outcome = ok payload`)
it builds the `RequestResult`, deposits it under key `p.frameId` via
`emplace` and releases the slot; on a failure (`outcome = error e`, the
`catch (...)` branch) it stores the exception as the first fault only —
without releasing the slot. -/
def runCallback (s : PipelineState) (p : PendingRequest) (outcome : Except Exn Nat) :
    PipelineState :=
  match outcome with
  | Except.ok payload =>
      let result : RequestResult :=
        { frameId := p.frameId, output := some payload, startTime := p.startTime }
      { s with
        completedRequestResults := mapEmplace s.completedRequestResults p.frameId result,
        requestsPool := s.requestsPool.setRequestIdle p.request }
  | Except.error e =>
      if s.callbackException = none then { s with callbackException := some e } else s

/-- `PipelineBase::getResult`: point lookup of `outputFrameId` in the
completion buffer.  When found: remove the entry, wrap-increment
`outputFrameId`, update the latency sum, frame count and FPS, and return the
result.  When absent: return a default-constructed sentinel, changing
nothing. -/
def getResult (s : PipelineState) (now : Int) : RequestResult × PipelineState :=
  match mapFind s.completedRequestResults s.outputFrameId with
  | some retVal =>
      let buffer := mapErase s.completedRequestResults s.outputFrameId
      let newOutputFrameId := incrementFrameId s.outputFrameId
      let latencySum := s.perfInfo.latencySum + (now - retVal.startTime)
      let framesCount := s.perfInfo.framesCount + 1
      let fps : ℚ := (framesCount : ℚ) * 1000 /
        ((millisecondsOf (now - s.perfInfo.startTime) : ℚ))
      (retVal,
       { s with
         completedRequestResults := buffer,
         outputFrameId := newOutputFrameId,
         perfInfo := { s.perfInfo with
           latencySum := latencySum, framesCount := framesCount, FPS := fps } })
  | none => (RequestResult.empty, s)

/-! ## Traces: interleavings of consumer calls and executor completions -/

/-- An observable step of an execution: the consumer submits a unit at time
`now` (acquiring an idle slot first, as the demo loop does), the executor
finishes the unit with sequence number `frameId` and its callback runs with
the given extraction outcome, or the consumer polls `getResult` at time
`now`.  (`waitForData` reads but never writes the state, so it does not
appear as an event.) -/
inductive Event where
  | submit (now : Int)
  | complete (frameId : Int) (outcome : Except Exn Nat)
  | getResult (now : Int)
deriving Repr

/-- Removes the first pending unit with the given sequence number (its
callback runs exactly once). -/
def removeFirstPending : List PendingRequest → Int → List PendingRequest
  | [], _ => []
  | p :: rest, fid =>
      if p.frameId == fid then rest else p :: removeFirstPending rest fid

/-- One event applied to the state; a `getResult` event also yields the
observation `(now, returned result)`. An event with no enabled effect (no
idle slot, no matching pending unit) leaves the state unchanged. -/
def applyEvent (s : PipelineState) (ev : Event) :
    PipelineState × Option (Int × RequestResult) :=
  match ev with
  | Event.submit now =>
      match s.requestsPool.findIdleRequest with
      | none => (s, none)
      | some r =>
          let s1 := { s with requestsPool := s.requestsPool.setRequestBusy r }
          ((submitRequest s1 r now).2, none)
  | Event.complete fid outcome =>
      match s.pending.find? (fun p => p.frameId == fid) with
      | none => (s, none)
      | some p =>
          let s1 := { s with pending := removeFirstPending s.pending fid }
          (runCallback s1 p outcome, none)
  | Event.getResult now =>
      let r := getResult s now
      (r.2, some (now, r.1))

/-- Runs a list of events, collecting the final state and the `getResult`
observations in order. -/
def runWithObs : PipelineState → List Event → PipelineState × List (Int × RequestResult)
  | s, [] => (s, [])
  | s, e :: es =>
      let step := applyEvent s e
      let rest := runWithObs step.1 es
      (rest.1, step.2.toList ++ rest.2)

/-- A freshly constructed pipeline after `init`: both counters zero, empty
buffer, no fault, zeroed counters, a pool of `poolSize` idle slots, the
configured output name. -/
def initialState (outputName : String) (poolSize : Nat) : PipelineState :=
  { inputFrameId := 0
    outputFrameId := 0
    completedRequestResults := []
    callbackException := none
    perfInfo := { numRequestsInUse := 0, startTime := 0, latencySum := 0,
                  framesCount := 0, FPS := 0 }
    requestsPool := ⟨List.replicate poolSize false⟩
    outputName := outputName
    pending := [] }

/-- The sequence numbers of the non-empty results returned by the
`getResult` calls of a run, in call order. -/
def retrievedIds (s : PipelineState) (es : List Event) : List Int :=
  ((runWithObs s es).2.filter (fun o => o.2.output.isSome)).map (fun o => o.2.frameId)

/-- The successful (non-empty) retrieval observations of a run. -/
def succRetrievals (s : PipelineState) (es : List Event) : List (Int × RequestResult) :=
  (runWithObs s es).2.filter (fun o => o.2.output.isSome)

/-! ## Basic lemmas about the map operations -/

lemma mapContains_false_iff (m : List (Int × RequestResult)) (k : Int) :
    mapContains m k = false ↔ mapFind m k = none := by
  cases h : m.find? (fun kv => kv.1 == k) <;> simp [mapContains, mapFind, h]

lemma mapFind_mem {m : List (Int × RequestResult)} {k : Int} {r : RequestResult}
    (h : mapFind m k = some r) : (k, r) ∈ m := by
  simp only [mapFind, Option.map_eq_some'] at h
  obtain ⟨kv, hfind, hsnd⟩ := h
  have hmem := List.mem_of_find?_eq_some hfind
  have hpred := List.find?_some hfind
  simp only [beq_iff_eq] at hpred
  have : kv = (k, r) := by
    cases kv
    simp only at hpred hsnd
    simp [hpred, hsnd]
  rw [this] at hmem
  exact hmem

lemma mapErase_of_not_contains {m : List (Int × RequestResult)} {k : Int}
    (h : k ∉ m.map Prod.fst) : mapErase m k = m := by
  induction m with
  | nil => rfl
  | cons kv rest ih =>
      simp only [List.map_cons, List.mem_cons, not_or] at h
      simp only [mapErase, List.filter_cons]
      have hne : (kv.1 != k) = true := by
        simp only [bne_iff_ne, ne_eq]
        exact fun hh => h.1 hh.symm
      rw [hne]
      simp only [if_true]
      have := ih h.2
      simp only [mapErase] at this
      rw [this]

lemma mapFind_cons (kv : Int × RequestResult) (m : List (Int × RequestResult)) (k : Int) :
    mapFind (kv :: m) k = if kv.1 = k then some kv.2 else mapFind m k := by
  by_cases h : kv.1 = k <;> simp [mapFind, List.find?_cons, h]

lemma mapErase_cons (kv : Int × RequestResult) (m : List (Int × RequestResult)) (k : Int) :
    mapErase (kv :: m) k = if kv.1 = k then mapErase m k else kv :: mapErase m k := by
  by_cases h : kv.1 = k <;> simp [mapErase, List.filter_cons, h, bne]

lemma mapErase_length {m : List (Int × RequestResult)} {k : Int} {r : RequestResult}
    (hnd : (m.map Prod.fst).Nodup) (h : mapFind m k = some r) :
    (mapErase m k).length + 1 = m.length := by
  induction m with
  | nil => simp [mapFind] at h
  | cons kv rest ih =>
      simp only [List.map_cons, List.nodup_cons] at hnd
      rw [mapFind_cons] at h
      rw [mapErase_cons]
      by_cases hk : kv.1 = k
      · rw [if_pos hk]
        rw [mapErase_of_not_contains (by rw [hk] at hnd; exact hnd.1)]
        simp
      · rw [if_neg hk]
        rw [if_neg hk] at h
        simp [ih hnd.2 h]

lemma mapFind_mapErase_self (m : List (Int × RequestResult)) (k : Int) :
    mapFind (mapErase m k) k = none := by
  induction m with
  | nil => rfl
  | cons kv rest ih =>
      rw [mapErase_cons]
      by_cases hk : kv.1 = k
      · rw [if_pos hk]; exact ih
      · rw [if_neg hk, mapFind_cons, if_neg hk]; exact ih

lemma mapFind_mapErase_ne (m : List (Int × RequestResult)) (k k' : Int) (h : k' ≠ k) :
    mapFind (mapErase m k) k' = mapFind m k' := by
  induction m with
  | nil => rfl
  | cons kv rest ih =>
      rw [mapErase_cons]
      by_cases hk : kv.1 = k
      · rw [if_pos hk, mapFind_cons, if_neg (by rw [hk]; exact fun hh => h hh.symm)]
        exact ih
      · rw [if_neg hk, mapFind_cons, mapFind_cons, ih]

lemma mem_mapEmplace {m : List (Int × RequestResult)} {k : Int} {v : RequestResult}
    {kv : Int × RequestResult} (h : kv ∈ mapEmplace m k v) : kv ∈ m ∨ kv = (k, v) := by
  simp only [mapEmplace] at h
  split at h
  · exact Or.inl h
  · rcases List.mem_append.mp h with h1 | h1
    · exact Or.inl h1
    · simp at h1; exact Or.inr h1

lemma mem_mapErase {m : List (Int × RequestResult)} {k : Int}
    {kv : Int × RequestResult} (h : kv ∈ mapErase m k) : kv ∈ m :=
  List.mem_of_mem_filter h

lemma mapFind_none_not_mem {m : List (Int × RequestResult)} {k : Int}
    (h : mapFind m k = none) : k ∉ m.map Prod.fst := by
  induction m with
  | nil => simp
  | cons kv rest ih =>
      rw [mapFind_cons] at h
      by_cases h0 : kv.1 = k
      · simp [h0] at h
      · rw [if_neg h0] at h
        simp only [List.map_cons, List.mem_cons]
        push_neg
        exact ⟨fun hh => h0 hh.symm, ih h⟩

lemma mapEmplace_keys_nodup {m : List (Int × RequestResult)} {k : Int} {v : RequestResult}
    (hnd : (m.map Prod.fst).Nodup) : ((mapEmplace m k v).map Prod.fst).Nodup := by
  simp only [mapEmplace]
  split
  · exact hnd
  · next hc =>
      rw [Bool.not_eq_true, mapContains_false_iff] at hc
      have hk : k ∉ m.map Prod.fst := mapFind_none_not_mem hc
      simp only [List.map_append, List.map_cons, List.map_nil]
      rw [List.nodup_append]
      refine ⟨hnd, List.nodup_singleton k, ?_⟩
      intro a ha hb
      simp only [List.mem_singleton] at hb
      exact hk (hb ▸ ha)

lemma mapErase_keys_nodup {m : List (Int × RequestResult)} {k : Int}
    (hnd : (m.map Prod.fst).Nodup) : ((mapErase m k).map Prod.fst).Nodup :=
  hnd.sublist (List.Sublist.map Prod.fst (List.filter_sublist m))

/-! ## The wrap-increment of the 64-bit counters -/

lemma incrementFrameId_eq {x : Int} (h0 : 0 ≤ x) (h1 : x < 2 ^ 63) :
    incrementFrameId x = (x + 1) % 2 ^ 63 := by
  have h63 : (2 : Int) ^ 63 = 9223372036854775808 := by norm_num
  have h64 : (2 : Int) ^ 64 = 18446744073709551616 := by norm_num
  simp only [incrementFrameId, int64Wrap, h63, h64]
  rw [h63] at h1
  split <;> omega

lemma incrementFrameId_lt {x : Int} (h0 : 0 ≤ x) (h1 : x < 2 ^ 63) :
    0 ≤ incrementFrameId x ∧ incrementFrameId x < 2 ^ 63 := by
  rw [incrementFrameId_eq h0 h1]
  have h63 : (2 : Int) ^ 63 = 9223372036854775808 := by norm_num
  rw [h63] at h1 ⊢
  omega

/-! ## Field-preservation lemmas for the three operations -/

lemma submitRequest_preserves (s : PipelineState) (r : Nat) (now : Int) :
    (submitRequest s r now).2.completedRequestResults = s.completedRequestResults ∧
    (submitRequest s r now).2.outputFrameId = s.outputFrameId ∧
    (submitRequest s r now).2.callbackException = s.callbackException ∧
    (submitRequest s r now).2.requestsPool = s.requestsPool ∧
    (submitRequest s r now).2.outputName = s.outputName ∧
    (submitRequest s r now).2.perfInfo.latencySum = s.perfInfo.latencySum ∧
    (submitRequest s r now).2.perfInfo.framesCount = s.perfInfo.framesCount ∧
    (submitRequest s r now).2.perfInfo.FPS = s.perfInfo.FPS := by
  simp only [submitRequest]
  split
  · simp
  · split <;> simp

lemma submitRequest_startTime (s : PipelineState) (r : Nat) (now : Int)
    (h : s.perfInfo.startTime ≠ 0) :
    (submitRequest s r now).2.perfInfo.startTime = s.perfInfo.startTime := by
  simp only [submitRequest]
  split
  · simp
  · simp

lemma submitRequest_unset (s : PipelineState) (r : Nat) (now : Int)
    (h : s.outputName = "") :
    submitRequest s r now =
      (Except.error (PipelineError.invalidArgument "outputName values is not set."),
       { s with perfInfo := { s.perfInfo with
           numRequestsInUse := s.requestsPool.getInUseRequestsCount } }) := by
  simp [submitRequest, h]

lemma submitRequest_ok (s : PipelineState) (r : Nat) (now : Int)
    (h : s.outputName ≠ "") :
    (submitRequest s r now).1 = Except.ok s.inputFrameId ∧
    (submitRequest s r now).2.inputFrameId = incrementFrameId s.inputFrameId ∧
    (submitRequest s r now).2.pending = s.pending ++ [⟨s.inputFrameId, now, r⟩] ∧
    (submitRequest s r now).2.perfInfo.startTime =
      (if s.perfInfo.startTime = 0 then now else s.perfInfo.startTime) ∧
    (submitRequest s r now).2.perfInfo.numRequestsInUse =
      s.requestsPool.getInUseRequestsCount := by
  simp only [submitRequest]
  split
  · next hc => exact absurd hc h
  · split
    · next hz => simp [hz]
    · next hz => simp [hz]

lemma runCallback_ok (s : PipelineState) (p : PendingRequest) (payload : Nat) :
    runCallback s p (Except.ok payload) =
      { s with
        completedRequestResults := mapEmplace s.completedRequestResults p.frameId
          { frameId := p.frameId, output := some payload, startTime := p.startTime },
        requestsPool := s.requestsPool.setRequestIdle p.request } := rfl

lemma runCallback_error (s : PipelineState) (p : PendingRequest) (e : Exn) :
    runCallback s p (Except.error e) =
      if s.callbackException = none then { s with callbackException := some e } else s := rfl

lemma getResult_of_none (s : PipelineState) (now : Int)
    (h : mapFind s.completedRequestResults s.outputFrameId = none) :
    getResult s now = (RequestResult.empty, s) := by
  simp only [getResult, h]

lemma getResult_of_some (s : PipelineState) (now : Int) (r : RequestResult)
    (h : mapFind s.completedRequestResults s.outputFrameId = some r) :
    getResult s now =
      (r, { s with
        completedRequestResults := mapErase s.completedRequestResults s.outputFrameId,
        outputFrameId := incrementFrameId s.outputFrameId,
        perfInfo := { s.perfInfo with
          latencySum := s.perfInfo.latencySum + (now - r.startTime),
          framesCount := s.perfInfo.framesCount + 1,
          FPS := ((s.perfInfo.framesCount + 1 : ℚ)) * 1000 /
            ((millisecondsOf (now - s.perfInfo.startTime) : ℚ)) } }) := by
  simp only [getResult, h]
  norm_num

/-! ## Claim theorems: the local operations -/

/-- A reachable state with the output name unset and one in-use slot whose
count has not yet been sampled (the caller acquired the slot just before
submitting). -/
def configFailureState : PipelineState :=
  { initialState "" 1 with requestsPool := ⟨[true]⟩ }

/-- C2 counterexample: `submitRequest` on a state with an unset output name
does throw `invalid_argument`, but it is not free of side effects: it has
already sampled `perfInfo.numRequestsInUse` before the check, so the state
after the failing call differs from the state before it. -/
theorem submitRequest_unset_output_mutates_state :
    (submitRequest configFailureState 0 5).1 =
      Except.error (PipelineError.invalidArgument "outputName values is not set.") ∧
    (submitRequest configFailureState 0 5).2 ≠ configFailureState := by
  constructor
  · rfl
  · decide

/-- C2 (amended): when the output name is unset, `submitRequest` fails with
`invalid_argument` ("ConfigurationError"), acquires no slot, increments no
sequence counter, and leaves the buffer, the fault slot and all performance
counters unchanged — except `perfInfo.numRequestsInUse`, which is updated to
the sampled in-use count before the check fires. -/
theorem submitRequest_unset_output_amended (s : PipelineState) (r : Nat) (now : Int)
    (h : s.outputName = "") :
    (submitRequest s r now).1 =
      Except.error (PipelineError.invalidArgument "outputName values is not set.") ∧
    (submitRequest s r now).2 =
      { s with perfInfo := { s.perfInfo with
          numRequestsInUse := s.requestsPool.getInUseRequestsCount } } := by
  simp [submitRequest, h]

/-- Witness for the amended C2 at a concrete state. -/
theorem submitRequest_unset_output_amended_witness :
    configFailureState.outputName = "" ∧
    (submitRequest configFailureState 0 5).2 =
      { configFailureState with perfInfo := { configFailureState.perfInfo with
          numRequestsInUse := 1 } } :=
  ⟨rfl, ((submitRequest_unset_output_amended configFailureState 0 5 rfl).2).trans (by decide)⟩

/-- C6: a successful `submitRequest` returns the pre-call `inputFrameId` as
the frame id, and afterwards `inputFrameId` is the old value plus one —
except past the maximum `int64_t` value, where it wraps to zero — and it
never becomes negative. -/
theorem submitRequest_frameId_increment (s : PipelineState) (r : Nat) (now : Int)
    (fid : Int) (h0 : 0 ≤ s.inputFrameId) (h1 : s.inputFrameId < 2 ^ 63)
    (hok : (submitRequest s r now).1 = Except.ok fid) :
    fid = s.inputFrameId ∧
    (submitRequest s r now).2.inputFrameId = (s.inputFrameId + 1) % 2 ^ 63 ∧
    (s.inputFrameId < 2 ^ 63 - 1 →
      (submitRequest s r now).2.inputFrameId = s.inputFrameId + 1) ∧
    (s.inputFrameId = 2 ^ 63 - 1 → (submitRequest s r now).2.inputFrameId = 0) ∧
    0 ≤ (submitRequest s r now).2.inputFrameId := by
  have hname : s.outputName ≠ "" := by
    intro hn
    rw [submitRequest_unset s r now hn] at hok
    simp at hok
  obtain ⟨hfst, hinp, -, -, -⟩ := submitRequest_ok s r now hname
  have hfid : fid = s.inputFrameId := by
    rw [hok] at hfst
    exact Except.ok.inj hfst
  have hinc := incrementFrameId_eq h0 h1
  have h63 : (2 : Int) ^ 63 = 9223372036854775808 := by norm_num
  rw [hinp, hinc]
  rw [h63] at h1 ⊢
  refine ⟨hfid, rfl, ?_, ?_, ?_⟩ <;> omega

/-- Witness for C6 at a concrete state. -/
theorem submitRequest_frameId_increment_witness :
    0 ≤ (initialState "out" 1).inputFrameId ∧
    (initialState "out" 1).inputFrameId < 2 ^ 63 ∧
    (submitRequest (initialState "out" 1) 0 7).1 = Except.ok 0 ∧
    (submitRequest (initialState "out" 1) 0 7).2.inputFrameId = 0 + 1 := by
  refine ⟨by decide, by norm_num [initialState], rfl, ?_⟩
  exact (submitRequest_frameId_increment (initialState "out" 1) 0 7 0
    (by decide) (by norm_num [initialState]) rfl).2.2.1 (by norm_num [initialState])

lemma runCallback_error_fields (s : PipelineState) (p : PendingRequest) (e : Exn) :
    (runCallback s p (Except.error e)).completedRequestResults = s.completedRequestResults ∧
    (runCallback s p (Except.error e)).inputFrameId = s.inputFrameId ∧
    (runCallback s p (Except.error e)).outputFrameId = s.outputFrameId ∧
    (runCallback s p (Except.error e)).perfInfo = s.perfInfo ∧
    (runCallback s p (Except.error e)).requestsPool = s.requestsPool ∧
    (runCallback s p (Except.error e)).outputName = s.outputName ∧
    (runCallback s p (Except.error e)).pending = s.pending := by
  by_cases hc : s.callbackException = none <;> simp [runCallback, hc]

/-- C5: `getResult` is a non-blocking point lookup at the current
`outputFrameId`: when the key is absent it returns the empty sentinel and
leaves the whole state (counter, buffer, performance counters) unchanged;
when present it returns exactly that entry, removes it (and only it),
advances `outputFrameId` by one with wraparound, and updates the latency
sum, frame count and FPS, leaving everything else untouched. -/
theorem getResult_point_lookup (s : PipelineState) (now : Int)
    (hnodup : (s.completedRequestResults.map Prod.fst).Nodup) :
    (mapFind s.completedRequestResults s.outputFrameId = none →
      getResult s now = (RequestResult.empty, s)) ∧
    (∀ r, mapFind s.completedRequestResults s.outputFrameId = some r →
      (getResult s now).1 = r ∧
      ((getResult s now).2.completedRequestResults).length + 1 =
        s.completedRequestResults.length ∧
      mapFind (getResult s now).2.completedRequestResults s.outputFrameId = none ∧
      (∀ k, k ≠ s.outputFrameId →
        mapFind (getResult s now).2.completedRequestResults k =
          mapFind s.completedRequestResults k) ∧
      (getResult s now).2.outputFrameId = incrementFrameId s.outputFrameId ∧
      (getResult s now).2.perfInfo.latencySum =
        s.perfInfo.latencySum + (now - r.startTime) ∧
      (getResult s now).2.perfInfo.framesCount = s.perfInfo.framesCount + 1 ∧
      (getResult s now).2.perfInfo.FPS =
        ((s.perfInfo.framesCount + 1 : ℚ)) * 1000 /
          ((millisecondsOf (now - s.perfInfo.startTime) : ℚ)) ∧
      (getResult s now).2.perfInfo.startTime = s.perfInfo.startTime ∧
      (getResult s now).2.perfInfo.numRequestsInUse = s.perfInfo.numRequestsInUse ∧
      (getResult s now).2.inputFrameId = s.inputFrameId ∧
      (getResult s now).2.callbackException = s.callbackException ∧
      (getResult s now).2.requestsPool = s.requestsPool) := by
  constructor
  · intro h
    exact getResult_of_none s now h
  · intro r h
    rw [getResult_of_some s now r h]
    refine ⟨rfl, ?_, ?_, ?_, rfl, rfl, rfl, rfl, rfl, rfl, rfl, rfl, rfl⟩
    · exact mapErase_length hnodup h
    · exact mapFind_mapErase_self _ _
    · intro k hk
      exact mapFind_mapErase_ne _ _ _ hk

/-- A reachable state with one completed result ready under key 0. -/
def readyState : PipelineState :=
  { initialState "out" 1 with
      completedRequestResults := [(0, ⟨0, some 9, 100⟩)] }

/-- Witness for C5 at a concrete state with one buffered result. -/
theorem getResult_point_lookup_witness :
    ((readyState.completedRequestResults.map Prod.fst).Nodup) ∧
    mapFind readyState.completedRequestResults readyState.outputFrameId =
      some ⟨0, some 9, 100⟩ ∧
    (getResult readyState 300).1 = ⟨0, some 9, 100⟩ ∧
    (getResult readyState 300).2.outputFrameId = 1 := by
  have h := getResult_point_lookup readyState 300 (by decide)
  have h2 := h.2 ⟨0, some 9, 100⟩ (by decide)
  refine ⟨by decide, by decide, h2.1, ?_⟩
  rw [h2.2.2.2.2.1]
  decide

/-- A reachable state in which a completion handler has already recorded a
fault. -/
def faultedState : PipelineState :=
  { initialState "out" 1 with callbackException := some 42 }

/-- C4: `waitForData` returns exactly when the wait predicate (fault
recorded, or a slot in use, or a completed result pending) holds; when a
fault is pending on wake-up it re-raises exactly the captured fault,
preserving its identity; and `submitRequest` can only raise the
configuration error (and `getResult`, being total with no error component,
raises nothing), so `waitForData` is the only operation that surfaces the
stored fault. -/
theorem waitForData_predicate_and_rethrow (s : PipelineState) (e : Exn) :
    ((waitForData s).isSome ↔ waitPredicate s = true) ∧
    (s.callbackException = some e → waitForData s = some (Except.error e)) ∧
    (∀ r now err, (submitRequest s r now).1 = Except.error err →
      err = PipelineError.invalidArgument "outputName values is not set.") := by
  refine ⟨?_, ?_, ?_⟩
  · by_cases hp : waitPredicate s = true <;> simp [waitForData, hp]
  · intro h
    have hp : waitPredicate s = true := by
      simp [waitPredicate, h]
    simp [waitForData, hp, h]
  · intro r now err herr
    by_cases hn : s.outputName = ""
    · rw [submitRequest_unset s r now hn] at herr
      simpa using herr.symm
    · rw [(submitRequest_ok s r now hn).1] at herr
      simp at herr

/-- Witness for C4: at a concrete faulted state, `waitForData` returns and
re-raises the exact recorded fault. -/
theorem waitForData_predicate_and_rethrow_witness :
    faultedState.callbackException = some 42 ∧
    waitForData faultedState = some (Except.error 42) ∧
    waitPredicate faultedState = true :=
  ⟨rfl, (waitForData_predicate_and_rethrow faultedState 42).2.1 rfl, by decide⟩

/-- C10: recording a fault changes only the stored fault field — the
completion buffer, both sequence counters, the performance counters and the
slot pool are untouched — and `getResult` ignores the fault entirely: with
any pending fault it returns exactly what it would return without one, and
(by its type) it never raises. -/
theorem fault_capture_isolated (s : PipelineState) (p : PendingRequest) (e : Exn)
    (ex : Option Exn) (now : Int) :
    ((runCallback s p (Except.error e)).completedRequestResults =
        s.completedRequestResults ∧
      (runCallback s p (Except.error e)).inputFrameId = s.inputFrameId ∧
      (runCallback s p (Except.error e)).outputFrameId = s.outputFrameId ∧
      (runCallback s p (Except.error e)).perfInfo = s.perfInfo ∧
      (runCallback s p (Except.error e)).requestsPool = s.requestsPool) ∧
    ((getResult { s with callbackException := ex } now).1 = (getResult s now).1 ∧
      (getResult { s with callbackException := ex } now).2 =
        { (getResult s now).2 with callbackException := ex }) := by
  constructor
  · obtain ⟨h1, h2, h3, h4, h5, -, -⟩ := runCallback_error_fields s p e
    exact ⟨h1, h2, h3, h4, h5⟩
  · cases h : mapFind s.completedRequestResults s.outputFrameId with
    | none =>
        have h' : mapFind ({ s with callbackException := ex } :
            PipelineState).completedRequestResults
            ({ s with callbackException := ex } : PipelineState).outputFrameId = none := h
        rw [getResult_of_none s now h, getResult_of_none _ now h']
        exact ⟨rfl, rfl⟩
    | some r =>
        have h' : mapFind ({ s with callbackException := ex } :
            PipelineState).completedRequestResults
            ({ s with callbackException := ex } : PipelineState).outputFrameId = some r := h
        rw [getResult_of_some s now r h, getResult_of_some _ now r h']
        exact ⟨rfl, rfl⟩

/-! ## Lemmas about event application -/

lemma applyEvent_submit_none (s : PipelineState) (now : Int)
    (h : s.requestsPool.findIdleRequest = none) :
    applyEvent s (Event.submit now) = (s, none) := by
  simp [applyEvent, h]

lemma applyEvent_submit_some (s : PipelineState) (now : Int) (r : Nat)
    (h : s.requestsPool.findIdleRequest = some r) :
    applyEvent s (Event.submit now) =
      ((submitRequest { s with requestsPool := s.requestsPool.setRequestBusy r } r now).2,
       none) := by
  simp [applyEvent, h]

lemma applyEvent_complete_none (s : PipelineState) (fid : Int) (outcome : Except Exn Nat)
    (h : s.pending.find? (fun p => p.frameId == fid) = none) :
    applyEvent s (Event.complete fid outcome) = (s, none) := by
  simp [applyEvent, h]

lemma applyEvent_complete_some (s : PipelineState) (fid : Int) (outcome : Except Exn Nat)
    (p : PendingRequest) (h : s.pending.find? (fun q => q.frameId == fid) = some p) :
    applyEvent s (Event.complete fid outcome) =
      (runCallback { s with pending := removeFirstPending s.pending fid } p outcome,
       none) := by
  simp [applyEvent, h]

lemma applyEvent_getResult (s : PipelineState) (now : Int) :
    applyEvent s (Event.getResult now) =
      ((getResult s now).2, some (now, (getResult s now).1)) := by
  simp [applyEvent]

lemma runWithObs_cons (s : PipelineState) (e : Event) (es : List Event) :
    runWithObs s (e :: es) =
      ((runWithObs (applyEvent s e).1 es).1,
       (applyEvent s e).2.toList ++ (runWithObs (applyEvent s e).1 es).2) := rfl

lemma idleIdx_idle (l : List Bool) (i : Nat) (h : idleIdx l = some i) :
    l.getD i true = false := by
  induction l generalizing i with
  | nil => simp [idleIdx] at h
  | cons b rest ih =>
      by_cases hb : b
      · simp only [idleIdx, if_pos hb, Option.map_eq_some'] at h
        obtain ⟨j, hj, hij⟩ := h
        subst hij
        simpa using ih j hj
      · simp only [idleIdx, if_neg hb] at h
        cases h
        simpa using hb

lemma getD_set_ne (l : List Bool) (i j : Nat) (v d : Bool) (h : i ≠ j) :
    (l.set i v).getD j d = l.getD j d := by
  induction l generalizing i j with
  | nil => simp
  | cons a rest ih =>
      cases i with
      | zero =>
          cases j with
          | zero => exact absurd rfl h
          | succ j => simp [List.set]
      | succ i =>
          cases j with
          | zero => simp [List.set]
          | succ j => simpa [List.set] using ih i j (fun hh => h (by rw [hh]))

/-! ## Invariants along traces -/

/-- Every stored result carries its own key as `frameId` and a non-null
output blob. -/
def bufferInv (s : PipelineState) : Prop :=
  ∀ kv ∈ s.completedRequestResults, kv.2.frameId = kv.1 ∧ kv.2.output.isSome = true

lemma bufferInv_applyEvent (s : PipelineState) (ev : Event) (h : bufferInv s) :
    bufferInv (applyEvent s ev).1 := by
  cases ev with
  | submit now =>
      cases hf : s.requestsPool.findIdleRequest with
      | none => rw [applyEvent_submit_none s now hf]; exact h
      | some r =>
          rw [applyEvent_submit_some s now r hf]
          intro kv hkv
          rw [(submitRequest_preserves _ r now).1] at hkv
          exact h kv hkv
  | complete fid outcome =>
      cases hf : s.pending.find? (fun q => q.frameId == fid) with
      | none => rw [applyEvent_complete_none s fid outcome hf]; exact h
      | some p =>
          rw [applyEvent_complete_some s fid outcome p hf]
          cases outcome with
          | error e =>
              intro kv hkv
              rw [(runCallback_error_fields _ p e).1] at hkv
              exact h kv hkv
          | ok payload =>
              intro kv hkv
              simp only [runCallback_ok] at hkv
              rcases mem_mapEmplace hkv with hm | he
              · exact h kv hm
              · subst he; exact ⟨rfl, rfl⟩
  | getResult now =>
      rw [applyEvent_getResult]
      cases hm : mapFind s.completedRequestResults s.outputFrameId with
      | none => rw [getResult_of_none s now hm]; exact h
      | some r =>
          rw [getResult_of_some s now r hm]
          intro kv hkv
          exact h kv (mem_mapErase hkv)

lemma keysNodup_applyEvent (s : PipelineState) (ev : Event)
    (h : (s.completedRequestResults.map Prod.fst).Nodup) :
    (((applyEvent s ev).1.completedRequestResults).map Prod.fst).Nodup := by
  cases ev with
  | submit now =>
      cases hf : s.requestsPool.findIdleRequest with
      | none => rw [applyEvent_submit_none s now hf]; exact h
      | some r =>
          rw [applyEvent_submit_some s now r hf]
          rw [(submitRequest_preserves _ r now).1]
          exact h
  | complete fid outcome =>
      cases hf : s.pending.find? (fun q => q.frameId == fid) with
      | none => rw [applyEvent_complete_none s fid outcome hf]; exact h
      | some p =>
          rw [applyEvent_complete_some s fid outcome p hf]
          cases outcome with
          | error e => rw [(runCallback_error_fields _ p e).1]; exact h
          | ok payload =>
              simp only [runCallback_ok]
              exact mapEmplace_keys_nodup h
  | getResult now =>
      rw [applyEvent_getResult]
      cases hm : mapFind s.completedRequestResults s.outputFrameId with
      | none => rw [getResult_of_none s now hm]; exact h
      | some r =>
          rw [getResult_of_some s now r hm]
          exact mapErase_keys_nodup h

lemma keysNodup_run (es : List Event) (s : PipelineState)
    (h : (s.completedRequestResults.map Prod.fst).Nodup) :
    (((runWithObs s es).1.completedRequestResults).map Prod.fst).Nodup := by
  induction es generalizing s with
  | nil => exact h
  | cons e es ih =>
      rw [runWithObs_cons]
      exact ih _ (keysNodup_applyEvent s e h)

lemma runCallback_outputFrameId (s : PipelineState) (p : PendingRequest)
    (outcome : Except Exn Nat) :
    (runCallback s p outcome).outputFrameId = s.outputFrameId := by
  cases outcome with
  | ok payload => rfl
  | error e => exact (runCallback_error_fields s p e).2.2.1

lemma applyEvent_obs_outputFrameId (s : PipelineState) (now : Int) (fid : Int)
    (outcome : Except Exn Nat) :
    ((applyEvent s (Event.submit now)).2 = none ∧
      (applyEvent s (Event.submit now)).1.outputFrameId = s.outputFrameId) ∧
    ((applyEvent s (Event.complete fid outcome)).2 = none ∧
      (applyEvent s (Event.complete fid outcome)).1.outputFrameId = s.outputFrameId) := by
  constructor
  · cases hf : s.requestsPool.findIdleRequest with
    | none => rw [applyEvent_submit_none s now hf]; exact ⟨rfl, rfl⟩
    | some r =>
        rw [applyEvent_submit_some s now r hf]
        exact ⟨rfl, (submitRequest_preserves _ r now).2.1⟩
  · cases hf : s.pending.find? (fun q => q.frameId == fid) with
    | none => rw [applyEvent_complete_none s fid outcome hf]; exact ⟨rfl, rfl⟩
    | some p =>
        rw [applyEvent_complete_some s fid outcome p hf]
        exact ⟨rfl, runCallback_outputFrameId _ p outcome⟩

lemma retrievedIds_cons_none (s : PipelineState) (e : Event) (es : List Event)
    (h : (applyEvent s e).2 = none) :
    retrievedIds s (e :: es) = retrievedIds (applyEvent s e).1 es := by
  simp [retrievedIds, runWithObs_cons, h]

lemma retrievedIds_cons_found (s : PipelineState) (now : Int) (es : List Event)
    (r : RequestResult) (hm : mapFind s.completedRequestResults s.outputFrameId = some r)
    (hsome : r.output.isSome = true) :
    retrievedIds s (Event.getResult now :: es) =
      r.frameId :: retrievedIds (getResult s now).2 es := by
  simp only [retrievedIds, runWithObs_cons, applyEvent_getResult, Option.toList_some,
    List.filter_append, List.map_append]
  have h1 : (getResult s now).1 = r := by rw [getResult_of_some s now r hm]
  simp [h1, hsome]

lemma retrievedIds_cons_notFound (s : PipelineState) (now : Int) (es : List Event)
    (hm : mapFind s.completedRequestResults s.outputFrameId = none) :
    retrievedIds s (Event.getResult now :: es) = retrievedIds s es := by
  simp only [retrievedIds, runWithObs_cons, applyEvent_getResult, Option.toList_some,
    List.filter_append, List.map_append]
  rw [getResult_of_none s now hm]
  simp [RequestResult.empty]

/-- The retrieved sequence numbers are consecutive (with wraparound)
starting at the state's `outputFrameId`. -/
def consecFrom : Int → List Int → Prop
  | _, [] => True
  | o, i :: rest => i = o ∧ consecFrom (incrementFrameId o) rest

lemma retrievedIds_consecFrom (es : List Event) (s : PipelineState) (h : bufferInv s) :
    consecFrom s.outputFrameId (retrievedIds s es) := by
  induction es generalizing s with
  | nil => trivial
  | cons e es ih =>
      cases e with
      | submit now =>
          have hx := (applyEvent_obs_outputFrameId s now 0 (Except.ok 0)).1
          rw [retrievedIds_cons_none s _ es hx.1, ← hx.2]
          exact ih _ (bufferInv_applyEvent s _ h)
      | complete fid outcome =>
          have hx := (applyEvent_obs_outputFrameId s 0 fid outcome).2
          rw [retrievedIds_cons_none s _ es hx.1, ← hx.2]
          exact ih _ (bufferInv_applyEvent s _ h)
      | getResult now =>
          cases hm : mapFind s.completedRequestResults s.outputFrameId with
          | none =>
              rw [retrievedIds_cons_notFound s now es hm]
              have hs : (getResult s now).2 = s := by
                rw [getResult_of_none s now hm]
              exact ih s h
          | some r =>
              have hr := h (s.outputFrameId, r) (mapFind_mem hm)
              rw [retrievedIds_cons_found s now es r hm hr.2]
              refine ⟨hr.1, ?_⟩
              have hinv2 : bufferInv (getResult s now).2 := by
                have := bufferInv_applyEvent s (Event.getResult now) h
                rwa [applyEvent_getResult] at this
              have hout : (getResult s now).2.outputFrameId =
                  incrementFrameId s.outputFrameId := by
                rw [getResult_of_some s now r hm]
              rw [← hout]
              exact ih _ hinv2

lemma consecFrom_closed (l : List Int) (k : Nat)
    (h : consecFrom ((k : Int) % 2 ^ 63) l) :
    l = (List.range l.length).map (fun j => (((k + j : Nat) : Int)) % 2 ^ 63) := by
  induction l generalizing k with
  | nil => rfl
  | cons i rest ih =>
      obtain ⟨hi, hrest⟩ := h
      have h63 : (2 : Int) ^ 63 = 9223372036854775808 := by norm_num
      have hb0 : (0 : Int) ≤ (k : Int) % 2 ^ 63 :=
        Int.emod_nonneg _ (by norm_num)
      have hb1 : (k : Int) % 2 ^ 63 < 2 ^ 63 :=
        Int.emod_lt_of_pos _ (by norm_num)
      have hmod : incrementFrameId ((k : Int) % 2 ^ 63) =
          (((k + 1 : Nat) : Int)) % 2 ^ 63 := by
        rw [incrementFrameId_eq hb0 hb1]
        rw [h63] at *
        push_cast
        omega
      rw [hmod] at hrest
      have htail := ih (k + 1) hrest
      subst hi
      simp only [List.length_cons, List.range_succ_eq_map, List.map_cons, List.map_map]
      refine List.cons_eq_cons.mpr ⟨by norm_num, ?_⟩
      refine htail.trans ?_
      simp only [Function.comp_def]
      apply List.map_congr_left
      intro j hj
      have harg : k + 1 + j = k + Nat.succ j := by omega
      rw [harg]

/-- C1: along any interleaving of submissions, completions (in any order)
and retrievals from a fresh pipeline, the sequence numbers of the non-empty
results returned by `getResult` are exactly 0, 1, 2, … (modulo the 63-bit
wraparound of the signed counter): results come back strictly in submission
order, each retrieval returning the result keyed by the current
`outputFrameId` and never any other. -/
theorem getResult_in_submission_order (name : String) (psz : Nat) (es : List Event) :
    retrievedIds (initialState name psz) es =
      (List.range (retrievedIds (initialState name psz) es).length).map
        (fun j : Nat => ((j : Int)) % 2 ^ 63) := by
  have hinv : bufferInv (initialState name psz) := by
    intro kv hkv
    simp [initialState] at hkv
  have h := retrievedIds_consecFrom es (initialState name psz) hinv
  have h0 : (initialState name psz).outputFrameId = ((0 : Nat) : Int) % 2 ^ 63 := by
    simp [initialState]
  rw [h0] at h
  have hc := consecFrom_closed _ 0 h
  refine hc.trans ?_
  apply List.map_congr_left
  intro j hj
  norm_num

/-! ## Fault monotonicity -/

lemma applyEvent_fault_mono (s : PipelineState) (ev : Event) (ex : Exn)
    (h : s.callbackException = some ex) :
    (applyEvent s ev).1.callbackException = some ex := by
  cases ev with
  | submit now =>
      cases hf : s.requestsPool.findIdleRequest with
      | none => rw [applyEvent_submit_none s now hf]; exact h
      | some r =>
          rw [applyEvent_submit_some s now r hf]
          rw [(submitRequest_preserves _ r now).2.2.1]
          exact h
  | complete fid outcome =>
      cases hf : s.pending.find? (fun q => q.frameId == fid) with
      | none => rw [applyEvent_complete_none s fid outcome hf]; exact h
      | some p =>
          rw [applyEvent_complete_some s fid outcome p hf]
          cases outcome with
          | ok payload => rw [runCallback_ok]; exact h
          | error e =>
              rw [runCallback_error]
              rw [if_neg (by simp [h])]
              exact h
  | getResult now =>
      cases hm : mapFind s.completedRequestResults s.outputFrameId with
      | none => rw [applyEvent_getResult]; rw [getResult_of_none s now hm]; exact h
      | some r => rw [applyEvent_getResult]; rw [getResult_of_some s now r hm]; exact h

lemma run_fault_mono (es : List Event) (s : PipelineState) (ex : Exn)
    (h : s.callbackException = some ex) :
    (runWithObs s es).1.callbackException = some ex := by
  induction es generalizing s with
  | nil => exact h
  | cons e es ih =>
      rw [runWithObs_cons]
      exact ih _ (applyEvent_fault_mono s e ex h)

/-- C3: when a completion handler fails on a fault-free pipeline, its
exception is stored as the first fault, and no later activity — further
submissions, completions (successful or failing, from the same or another
handler) or retrievals — ever changes the stored fault. -/
theorem first_fault_kept (s : PipelineState) (p : PendingRequest) (e1 : Exn)
    (es : List Event) (h : s.callbackException = none) :
    (runCallback s p (Except.error e1)).callbackException = some e1 ∧
    (runWithObs (runCallback s p (Except.error e1)) es).1.callbackException = some e1 := by
  have h1 : (runCallback s p (Except.error e1)).callbackException = some e1 := by
    simp [runCallback, h]
  exact ⟨h1, run_fault_mono es _ e1 h1⟩

/-- Witness for C3: a concrete first fault (42) survives a later differing
handler failure (7). -/
theorem first_fault_kept_witness :
    (initialState "out" 2).callbackException = none ∧
    (runCallback (initialState "out" 2) ⟨0, 10, 0⟩ (Except.error 42)).callbackException =
      some 42 ∧
    (runWithObs (runCallback (initialState "out" 2) ⟨0, 10, 0⟩ (Except.error 42))
        [Event.submit 20, Event.complete 0 (Except.error 7)]).1.callbackException =
      some 42 := by
  refine ⟨rfl, ?_, ?_⟩
  · exact (first_fault_kept (initialState "out" 2) ⟨0, 10, 0⟩ 42
      [Event.submit 20, Event.complete 0 (Except.error 7)] rfl).1
  · exact (first_fault_kept (initialState "out" 2) ⟨0, 10, 0⟩ 42
      [Event.submit 20, Event.complete 0 (Except.error 7)] rfl).2

/-- C9: depositing a completed result never overwrites an existing entry —
`emplace` with an already-present key (possible after counter wraparound
while an old entry is unretrieved) leaves the map unchanged and drops the
new result, so along any trace each sequence number maps to at most one
stored result. -/
theorem emplace_no_overwrite (m : List (Int × RequestResult)) (k : Int)
    (v r : RequestResult) (s : PipelineState) (payload : Nat) (es : List Event) :
    (mapContains m k = true → mapEmplace m k v = m) ∧
    (mapFind m k = some r → mapFind (mapEmplace m k v) k = some r) ∧
    (∀ p : PendingRequest, mapContains s.completedRequestResults p.frameId = true →
      (runCallback s p (Except.ok payload)).completedRequestResults =
        s.completedRequestResults) ∧
    ((s.completedRequestResults.map Prod.fst).Nodup →
      (((runWithObs s es).1.completedRequestResults).map Prod.fst).Nodup) := by
  refine ⟨?_, ?_, ?_, ?_⟩
  · intro h
    simp [mapEmplace, h]
  · intro h
    have hc : mapContains m k = true := by
      cases ho : m.find? (fun kv => kv.1 == k) with
      | none => rw [mapFind, ho] at h; simp at h
      | some kv => rw [mapContains, ho]; rfl
    rw [mapEmplace, if_pos hc]
    exact h
  · intro p h
    rw [runCallback_ok]
    simp only
    rw [mapEmplace, if_pos h]
  · intro h
    exact keysNodup_run es s h

/-- Witness for C9: emplacing a second result under an occupied key drops
the new value and keeps the old one; key uniqueness holds along a run. -/
theorem emplace_no_overwrite_witness :
    mapContains [((0 : Int), (⟨0, some 9, 100⟩ : RequestResult))] 0 = true ∧
    mapEmplace [((0 : Int), (⟨0, some 9, 100⟩ : RequestResult))] 0 ⟨0, some 7, 200⟩ =
      [((0 : Int), (⟨0, some 9, 100⟩ : RequestResult))] ∧
    mapFind (mapEmplace [((0 : Int), (⟨0, some 9, 100⟩ : RequestResult))] 0
      ⟨0, some 7, 200⟩) 0 = some ⟨0, some 9, 100⟩ ∧
    ((((runWithObs (initialState "out" 1)
        [Event.submit 10, Event.complete 0 (Except.ok 5)]).1.completedRequestResults).map
          Prod.fst).Nodup) := by
  have h := emplace_no_overwrite [((0 : Int), (⟨0, some 9, 100⟩ : RequestResult))] 0
    ⟨0, some 7, 200⟩ ⟨0, some 9, 100⟩ (initialState "out" 1) 5
    [Event.submit 10, Event.complete 0 (Except.ok 5)]
  exact ⟨by decide, h.1 (by decide), h.2.1 (by decide), h.2.2.2 (by decide)⟩

/-! ## The faulted unit: slot retention and permanent absence of its result -/

/-- The sequence numbers assigned by the effective submissions of a run
(submissions that find an idle slot and a configured output name). -/
def submittedIds : PipelineState → List Event → List Int
  | _, [] => []
  | s, e :: es =>
      (match e with
       | Event.submit _ =>
           if s.requestsPool.findIdleRequest.isSome && (s.outputName != "") then
             [s.inputFrameId]
           else []
       | _ => []) ++ submittedIds (applyEvent s e).1 es

lemma mem_removeFirstPending {l : List PendingRequest} {fid : Int} {q : PendingRequest}
    (h : q ∈ removeFirstPending l fid) : q ∈ l := by
  induction l with
  | nil => simp [removeFirstPending] at h
  | cons p rest ih =>
      simp only [removeFirstPending] at h
      split at h
      · exact List.mem_cons_of_mem p h
      · rcases List.mem_cons.mp h with h1 | h1
        · exact h1 ▸ List.mem_cons_self p rest
        · exact List.mem_cons_of_mem p (ih h1)

lemma mapFind_append_single (m : List (Int × RequestResult)) (k : Int)
    (v : RequestResult) (f : Int) (h : k ≠ f) :
    mapFind (m ++ [(k, v)]) f = mapFind m f := by
  induction m with
  | nil =>
      simp only [List.nil_append]
      rw [mapFind_cons, if_neg h]
  | cons kv rest ih =>
      simp only [List.cons_append]
      rw [mapFind_cons, mapFind_cons, ih]

lemma mapFind_mapEmplace_other {m : List (Int × RequestResult)} {k f : Int}
    {v : RequestResult} (h : mapFind m f = none) (hk : k ≠ f) :
    mapFind (mapEmplace m k v) f = none := by
  rw [mapEmplace]
  split
  · exact h
  · rw [mapFind_append_single m k v f hk]
    exact h

/-- Key `f` is absent everywhere: not in the completion buffer and not the
sequence number of any in-flight unit. -/
def absentInv (f : Int) (s : PipelineState) : Prop :=
  mapFind s.completedRequestResults f = none ∧ ∀ q ∈ s.pending, q.frameId ≠ f

lemma absentInv_applyEvent {f : Int} {s : PipelineState} (ev : Event)
    (h : absentInv f s)
    (hs : ∀ now, ev = Event.submit now →
      (s.requestsPool.findIdleRequest.isSome && (s.outputName != "")) = true →
      s.inputFrameId ≠ f) :
    absentInv f (applyEvent s ev).1 := by
  cases ev with
  | submit now =>
      cases hf : s.requestsPool.findIdleRequest with
      | none => rw [applyEvent_submit_none s now hf]; exact h
      | some r =>
          rw [applyEvent_submit_some s now r hf]
          by_cases hn : s.outputName = ""
          · have hn' : ({ s with requestsPool := s.requestsPool.setRequestBusy r } :
                PipelineState).outputName = "" := hn
            rw [submitRequest_unset _ r now hn']
            exact h
          · have hid : s.inputFrameId ≠ f := by
              apply hs now rfl
              simp [hf, hn]
            have hn' : ({ s with requestsPool := s.requestsPool.setRequestBusy r } :
                PipelineState).outputName ≠ "" := hn
            obtain ⟨-, -, hp, -, -⟩ := submitRequest_ok _ r now hn'
            constructor
            · rw [(submitRequest_preserves _ r now).1]
              exact h.1
            · intro q hq
              rw [hp] at hq
              rcases List.mem_append.mp hq with h1 | h1
              · exact h.2 q h1
              · simp only [List.mem_singleton] at h1
                subst h1
                exact hid
  | complete fid outcome =>
      cases hf : s.pending.find? (fun q => q.frameId == fid) with
      | none => rw [applyEvent_complete_none s fid outcome hf]; exact h
      | some p =>
          rw [applyEvent_complete_some s fid outcome p hf]
          have hpmem : p ∈ s.pending := List.mem_of_find?_eq_some hf
          have hpf : p.frameId ≠ f := h.2 p hpmem
          cases outcome with
          | ok payload =>
              rw [runCallback_ok]
              refine ⟨?_, ?_⟩
              · simp only
                exact mapFind_mapEmplace_other h.1 hpf
              · intro q hq
                simp only at hq
                exact h.2 q (mem_removeFirstPending hq)
          | error e =>
              obtain ⟨hb, -, -, -, -, -, hpend⟩ := runCallback_error_fields
                { s with pending := removeFirstPending s.pending fid } p e
              refine ⟨?_, ?_⟩
              · rw [hb]; exact h.1
              · intro q hq
                rw [hpend] at hq
                exact h.2 q (mem_removeFirstPending hq)
  | getResult now =>
      rw [applyEvent_getResult]
      cases hm : mapFind s.completedRequestResults s.outputFrameId with
      | none => rw [getResult_of_none s now hm]; exact h
      | some r =>
          rw [getResult_of_some s now r hm]
          refine ⟨?_, h.2⟩
          by_cases hk : f = s.outputFrameId
          · rw [hk]; exact mapFind_mapErase_self _ _
          · rw [mapFind_mapErase_ne _ _ _ hk]; exact h.1

lemma absentInv_run (f : Int) (es : List Event) (s : PipelineState)
    (h : absentInv f s) (hfresh : f ∉ submittedIds s es) :
    absentInv f (runWithObs s es).1 := by
  induction es generalizing s with
  | nil => exact h
  | cons e es ih =>
      rw [runWithObs_cons]
      simp only [submittedIds, List.mem_append] at hfresh
      push_neg at hfresh
      refine ih _ (absentInv_applyEvent e h ?_) ?_
      · intro now hev hcond
        subst hev
        intro hid
        apply hfresh.1
        simp only [hcond, if_true]
        rw [hid]
        exact List.mem_singleton.mpr rfl
      · exact hfresh.2

/-- Slot `r` is InUse and no in-flight unit refers to it (its own callback
has already run and faulted). -/
def slotInv (r : Nat) (s : PipelineState) : Prop :=
  s.requestsPool.slots.getD r false = true ∧ ∀ q ∈ s.pending, q.request ≠ r

lemma slotInv_applyEvent {rq : Nat} {s : PipelineState} (ev : Event)
    (h : slotInv rq s) : slotInv rq (applyEvent s ev).1 := by
  cases ev with
  | submit now =>
      cases hf : s.requestsPool.findIdleRequest with
      | none => rw [applyEvent_submit_none s now hf]; exact h
      | some r =>
          have hidle : s.requestsPool.slots.getD r true = false := idleIdx_idle _ r hf
          have hne : r ≠ rq := by
            intro heq
            subst heq
            have hb := h.1
            rw [List.getD_eq_getD_get?] at hidle hb
            cases hg : s.requestsPool.slots.get? r with
            | none =>
                rw [hg] at hidle
                simp at hidle
            | some b =>
                rw [hg] at hidle hb
                simp at hidle hb
                rw [hidle] at hb
                exact Bool.false_ne_true hb
          rw [applyEvent_submit_some s now r hf]
          by_cases hn : s.outputName = ""
          · have hn' : ({ s with requestsPool := s.requestsPool.setRequestBusy r } :
                PipelineState).outputName = "" := hn
            rw [submitRequest_unset _ r now hn']
            refine ⟨?_, h.2⟩
            simp only [RequestsPool.setRequestBusy]
            rw [getD_set_ne _ _ _ _ _ hne]
            exact h.1
          · have hn' : ({ s with requestsPool := s.requestsPool.setRequestBusy r } :
                PipelineState).outputName ≠ "" := hn
            obtain ⟨-, -, hp, -, -⟩ := submitRequest_ok _ r now hn'
            refine ⟨?_, ?_⟩
            · rw [(submitRequest_preserves _ r now).2.2.2.1]
              simp only [RequestsPool.setRequestBusy]
              rw [getD_set_ne _ _ _ _ _ hne]
              exact h.1
            · intro q hq
              rw [hp] at hq
              rcases List.mem_append.mp hq with h1 | h1
              · exact h.2 q h1
              · simp only [List.mem_singleton] at h1
                subst h1
                exact hne
  | complete fid outcome =>
      cases hf : s.pending.find? (fun q => q.frameId == fid) with
      | none => rw [applyEvent_complete_none s fid outcome hf]; exact h
      | some p =>
          rw [applyEvent_complete_some s fid outcome p hf]
          have hpmem : p ∈ s.pending := List.mem_of_find?_eq_some hf
          have hpr : p.request ≠ rq := h.2 p hpmem
          cases outcome with
          | ok payload =>
              rw [runCallback_ok]
              refine ⟨?_, ?_⟩
              · simp only [RequestsPool.setRequestIdle]
                rw [getD_set_ne _ _ _ _ _ hpr]
                exact h.1
              · intro q hq
                simp only at hq
                exact h.2 q (mem_removeFirstPending hq)
          | error e =>
              obtain ⟨-, -, -, -, hpool, -, hpend⟩ := runCallback_error_fields
                { s with pending := removeFirstPending s.pending fid } p e
              refine ⟨?_, ?_⟩
              · rw [hpool]; exact h.1
              · intro q hq
                rw [hpend] at hq
                exact h.2 q (mem_removeFirstPending hq)
  | getResult now =>
      rw [applyEvent_getResult]
      cases hm : mapFind s.completedRequestResults s.outputFrameId with
      | none => rw [getResult_of_none s now hm]; exact h
      | some r => rw [getResult_of_some s now r hm]; exact ⟨h.1, h.2⟩

lemma slotInv_run (rq : Nat) (es : List Event) (s : PipelineState)
    (h : slotInv rq s) : slotInv rq (runWithObs s es).1 := by
  induction es generalizing s with
  | nil => exact h
  | cons e es ih =>
      rw [runWithObs_cons]
      exact ih _ (slotInv_applyEvent e h)

/-- C8: when the completion handler of unit `fid` faults during result
extraction, the fault is recorded and the handler returns without releasing
the slot: the buffer, the counters and the pool are untouched by the fault
(so the slot stays InUse), and from then on — as long as no later
submission is assigned the same (wrapped-around) sequence number — the slot
is never returned to the pool, no result is ever deposited under `fid`, and
`getResult` with `outputFrameId = fid` returns the empty sentinel forever. -/
theorem fault_slot_not_released (s : PipelineState) (fid : Int) (e : Exn)
    (p : PendingRequest) (es : List Event)
    (hfind : s.pending.find? (fun q => q.frameId == fid) = some p)
    (hnof : s.callbackException = none)
    (hbusy : s.requestsPool.slots.getD p.request false = true)
    (hslots : ∀ q ∈ removeFirstPending s.pending fid, q.request ≠ p.request)
    (hids : ∀ q ∈ removeFirstPending s.pending fid, q.frameId ≠ fid)
    (hnotin : mapFind s.completedRequestResults fid = none)
    (hfresh : fid ∉ submittedIds
      (applyEvent s (Event.complete fid (Except.error e))).1 es) :
    ((applyEvent s (Event.complete fid (Except.error e))).1.callbackException =
      some e) ∧
    ((applyEvent s (Event.complete fid (Except.error e))).1.completedRequestResults =
      s.completedRequestResults) ∧
    ((applyEvent s (Event.complete fid (Except.error e))).1.perfInfo = s.perfInfo) ∧
    ((applyEvent s (Event.complete fid (Except.error e))).1.requestsPool =
      s.requestsPool) ∧
    ((runWithObs (applyEvent s
        (Event.complete fid (Except.error e))).1 es).1.requestsPool.slots.getD
        p.request false = true) ∧
    (mapFind (runWithObs (applyEvent s
        (Event.complete fid (Except.error e))).1 es).1.completedRequestResults
        fid = none) ∧
    (∀ t, (runWithObs (applyEvent s
        (Event.complete fid (Except.error e))).1 es).1.outputFrameId = fid →
      (getResult (runWithObs (applyEvent s
        (Event.complete fid (Except.error e))).1 es).1 t).1 = RequestResult.empty) := by
  have happ := applyEvent_complete_some s fid (Except.error e) p hfind
  have hcb : ({ s with pending := removeFirstPending s.pending fid } :
      PipelineState).callbackException = none := hnof
  have hrc : runCallback { s with pending := removeFirstPending s.pending fid } p
      (Except.error e) =
      { s with pending := removeFirstPending s.pending fid,
               callbackException := some e } := by
    rw [runCallback_error, if_pos hcb]
  rw [happ, hrc] at hfresh ⊢
  simp only at hfresh ⊢
  have hslotInv : slotInv p.request
      ({ s with pending := removeFirstPending s.pending fid,
                callbackException := some e } : PipelineState) := ⟨hbusy, hslots⟩
  have habsInv : absentInv fid
      ({ s with pending := removeFirstPending s.pending fid,
                callbackException := some e } : PipelineState) := ⟨hnotin, hids⟩
  have hslot := slotInv_run p.request es _ hslotInv
  have habs := absentInv_run fid es _ habsInv hfresh
  refine ⟨trivial, trivial, trivial, trivial, hslot.1, habs.1, ?_⟩
  intro t hout
  have hnone : mapFind (runWithObs ({ s with
      pending := removeFirstPending s.pending fid,
      callbackException := some e } : PipelineState) es).1.completedRequestResults
      ((runWithObs ({ s with
      pending := removeFirstPending s.pending fid,
      callbackException := some e } : PipelineState) es).1.outputFrameId) = none := by
    rw [hout]
    exact habs.1
  rw [getResult_of_none _ t hnone]

/-- The state after submitting one unit on a fresh single-slot pipeline. -/
def faultScenarioState : PipelineState :=
  (runWithObs (initialState "out" 1) [Event.submit 10]).1

/-- Witness for C8 at the spec's scenario: one submitted unit whose handler
faults; afterwards the slot stays InUse and `getResult` at that sequence
number returns empty. -/
theorem fault_slot_not_released_witness :
    faultScenarioState.pending.find? (fun q => q.frameId == (0 : Int)) =
      some ⟨0, 10, 0⟩ ∧
    ((applyEvent faultScenarioState
      (Event.complete 0 (Except.error 5))).1.callbackException = some 5) ∧
    ((runWithObs (applyEvent faultScenarioState
        (Event.complete 0 (Except.error 5))).1
        [Event.getResult 20]).1.requestsPool.slots.getD 0 false = true) ∧
    (mapFind (runWithObs (applyEvent faultScenarioState
        (Event.complete 0 (Except.error 5))).1
        [Event.getResult 20]).1.completedRequestResults 0 = none) := by
  have h := fault_slot_not_released faultScenarioState 0 5 ⟨0, 10, 0⟩
    [Event.getResult 20] (by decide) (by decide) (by decide)
    (by decide) (by decide) (by decide) (by decide)
  exact ⟨by decide, h.1, h.2.2.2.2.1, h.2.2.2.2.2.1⟩

/-! ## Performance counters along traces -/

/-- Sum of (retrieval time − recorded submission start time) over a list of
retrieval observations. -/
def latencyOfObs (l : List (Int × RequestResult)) : Int :=
  (l.map (fun o => o.1 - o.2.startTime)).sum

/-- All submission timestamps of a trace are positive (a `steady_clock`
reading is never the epoch itself). -/
def submitTimesPos : List Event → Prop
  | [] => True
  | Event.submit t :: es => 0 < t ∧ submitTimesPos es
  | _ :: es => submitTimesPos es

/-- The timestamp of the first submission event of a trace (0 when there is
none). -/
def firstSubmitTime : List Event → Int
  | [] => 0
  | Event.submit t :: _ => t
  | _ :: es => firstSubmitTime es

/-- Either the session start time is recorded, or nothing has ever been
submitted (empty buffer and no in-flight unit). -/
def Winv (s : PipelineState) : Prop :=
  s.perfInfo.startTime ≠ 0 ∨ (s.completedRequestResults = [] ∧ s.pending = [])

lemma latencyOfObs_cons (o : Int × RequestResult) (l : List (Int × RequestResult)) :
    latencyOfObs (o :: l) = (o.1 - o.2.startTime) + latencyOfObs l := by
  simp [latencyOfObs]

lemma applyEvent_submit_perf (s : PipelineState) (now : Int) :
    (applyEvent s (Event.submit now)).1.perfInfo.framesCount = s.perfInfo.framesCount ∧
    (applyEvent s (Event.submit now)).1.perfInfo.latencySum = s.perfInfo.latencySum ∧
    (applyEvent s (Event.submit now)).1.perfInfo.FPS = s.perfInfo.FPS ∧
    (s.perfInfo.startTime ≠ 0 →
      (applyEvent s (Event.submit now)).1.perfInfo.startTime = s.perfInfo.startTime) := by
  cases hf : s.requestsPool.findIdleRequest with
  | none =>
      rw [applyEvent_submit_none s now hf]
      exact ⟨rfl, rfl, rfl, fun _ => rfl⟩
  | some r =>
      rw [applyEvent_submit_some s now r hf]
      obtain ⟨-, -, -, -, -, hls, hfc, hfps⟩ := submitRequest_preserves
        { s with requestsPool := s.requestsPool.setRequestBusy r } r now
      refine ⟨hfc, hls, hfps, ?_⟩
      intro h
      exact submitRequest_startTime _ r now h

lemma applyEvent_complete_perf (s : PipelineState) (fid : Int)
    (outcome : Except Exn Nat) :
    (applyEvent s (Event.complete fid outcome)).1.perfInfo = s.perfInfo := by
  cases hf : s.pending.find? (fun q => q.frameId == fid) with
  | none => rw [applyEvent_complete_none s fid outcome hf]
  | some p =>
      rw [applyEvent_complete_some s fid outcome p hf]
      cases outcome with
      | ok payload => rfl
      | error e => exact (runCallback_error_fields _ p e).2.2.2.1

lemma Winv_applyEvent (s : PipelineState) (e : Event) (h : Winv s)
    (ht : ∀ now, e = Event.submit now → 0 < now) : Winv (applyEvent s e).1 := by
  cases e with
  | submit now =>
      have hpos : 0 < now := ht now rfl
      cases hf : s.requestsPool.findIdleRequest with
      | none => rw [applyEvent_submit_none s now hf]; exact h
      | some r =>
          rw [applyEvent_submit_some s now r hf]
          by_cases hn : s.outputName = ""
          · have hn' : ({ s with requestsPool := s.requestsPool.setRequestBusy r } :
                PipelineState).outputName = "" := hn
            rw [submitRequest_unset _ r now hn']
            rcases h with h | h
            · exact Or.inl h
            · exact Or.inr ⟨h.1, h.2⟩
          · have hn' : ({ s with requestsPool := s.requestsPool.setRequestBusy r } :
                PipelineState).outputName ≠ "" := hn
            obtain ⟨-, -, -, hst, -⟩ := submitRequest_ok _ r now hn'
            left
            rw [hst]
            by_cases hz : s.perfInfo.startTime = 0
            · have hz' : ({ s with requestsPool := s.requestsPool.setRequestBusy r } :
                  PipelineState).perfInfo.startTime = 0 := hz
              rw [if_pos hz']
              omega
            · have hz' : ¬ ({ s with requestsPool := s.requestsPool.setRequestBusy r } :
                  PipelineState).perfInfo.startTime = 0 := hz
              rw [if_neg hz']
              exact hz
  | complete fid outcome =>
      cases hf : s.pending.find? (fun q => q.frameId == fid) with
      | none => rw [applyEvent_complete_none s fid outcome hf]; exact h
      | some p =>
          have hmem : p ∈ s.pending := List.mem_of_find?_eq_some hf
          have hstz : s.perfInfo.startTime ≠ 0 := by
            rcases h with h | h
            · exact h
            · rw [h.2] at hmem
              simp at hmem
          left
          rw [applyEvent_complete_perf s fid outcome]
          exact hstz
  | getResult now =>
      cases hm : mapFind s.completedRequestResults s.outputFrameId with
      | none =>
          rw [applyEvent_getResult, getResult_of_none s now hm]
          exact h
      | some r =>
          have hne : s.completedRequestResults ≠ [] := by
            intro hnil
            rw [hnil] at hm
            simp [mapFind] at hm
          have hstz : s.perfInfo.startTime ≠ 0 := by
            rcases h with h | h
            · exact h
            · exact absurd h.1 hne
          left
          rw [applyEvent_getResult, getResult_of_some s now r hm]
          exact hstz

lemma submitTimesPos_tail (e : Event) (es : List Event)
    (h : submitTimesPos (e :: es)) : submitTimesPos es := by
  cases e with
  | submit t => exact h.2
  | complete fid o => exact h
  | getResult t => exact h

lemma submitTimesPos_head (t : Int) (es : List Event)
    (h : submitTimesPos (Event.submit t :: es)) : 0 < t := h.1

lemma perf_general (es : List Event) (s : PipelineState)
    (hw : Winv s) (hb : bufferInv s) (ht : submitTimesPos es) :
    ((runWithObs s es).1.perfInfo.framesCount =
      s.perfInfo.framesCount +
        ((runWithObs s es).2.filter (fun o => o.2.output.isSome)).length) ∧
    ((runWithObs s es).1.perfInfo.latencySum =
      s.perfInfo.latencySum +
        latencyOfObs ((runWithObs s es).2.filter (fun o => o.2.output.isSome))) ∧
    (s.perfInfo.startTime ≠ 0 →
      (runWithObs s es).1.perfInfo.startTime = s.perfInfo.startTime) ∧
    (((runWithObs s es).2.filter (fun o => o.2.output.isSome)) = [] →
      (runWithObs s es).1.perfInfo.FPS = s.perfInfo.FPS) ∧
    (∀ tK rK, ((runWithObs s es).2.filter (fun o => o.2.output.isSome)).getLast? =
        some (tK, rK) →
      (runWithObs s es).1.perfInfo.startTime ≠ 0 ∧
      (runWithObs s es).1.perfInfo.FPS =
        ((s.perfInfo.framesCount +
          ((runWithObs s es).2.filter (fun o => o.2.output.isSome)).length : ℚ)) *
            1000 /
          ((millisecondsOf (tK - (runWithObs s es).1.perfInfo.startTime) : ℚ))) := by
  induction es generalizing s with
  | nil =>
      refine ⟨by simp [runWithObs], by simp [runWithObs, latencyOfObs],
        fun _ => rfl, fun _ => rfl, ?_⟩
      intro tK rK hlast
      simp [runWithObs] at hlast
  | cons e es ih =>
      have hts := submitTimesPos_tail e es ht
      cases e with
      | submit now =>
          have hpos := submitTimesPos_head now es ht
          have hobs := (applyEvent_obs_outputFrameId s now 0 (Except.ok 0)).1.1
          have hperf := applyEvent_submit_perf s now
          have hw' : Winv (applyEvent s (Event.submit now)).1 :=
            Winv_applyEvent s _ hw (by intro t hteq; cases hteq; exact hpos)
          have hb' := bufferInv_applyEvent s (Event.submit now) hb
          have IH := ih (applyEvent s (Event.submit now)).1 hw' hb' hts
          rw [runWithObs_cons, hobs]
          simp only [Option.toList_none, List.nil_append]
          refine ⟨?_, ?_, ?_, ?_, ?_⟩
          · rw [IH.1, hperf.1]
          · rw [IH.2.1, hperf.2.1]
          · intro h
            rw [IH.2.2.1 (by rw [hperf.2.2.2 h]; exact h), hperf.2.2.2 h]
          · intro h
            rw [IH.2.2.2.1 h, hperf.2.2.1]
          · intro tK rK hlast
            obtain ⟨h1, h2⟩ := IH.2.2.2.2 tK rK hlast
            refine ⟨h1, ?_⟩
            rw [← hperf.1]
            exact h2
      | complete fid outcome =>
          have hobs := (applyEvent_obs_outputFrameId s 0 fid outcome).2.1
          have hperf := applyEvent_complete_perf s fid outcome
          have hw' : Winv (applyEvent s (Event.complete fid outcome)).1 :=
            Winv_applyEvent s _ hw (by intro t hteq; cases hteq)
          have hb' := bufferInv_applyEvent s (Event.complete fid outcome) hb
          have IH := ih (applyEvent s (Event.complete fid outcome)).1 hw' hb' hts
          rw [hperf] at IH
          rw [runWithObs_cons, hobs]
          simp only [Option.toList_none, List.nil_append]
          exact IH
      | getResult now =>
          rw [runWithObs_cons, applyEvent_getResult]
          simp only
          cases hm : mapFind s.completedRequestResults s.outputFrameId with
          | none =>
              have hres := getResult_of_none s now hm
              have h1 : (getResult s now).1 = RequestResult.empty := by rw [hres]
              have h2 : (getResult s now).2 = s := by rw [hres]
              rw [h1, h2]
              have IH := ih s hw hb hts
              simp only [Option.toList_some, List.singleton_append]
              have hfilter : ∀ L : List (Int × RequestResult),
                  ((now, RequestResult.empty) :: L).filter
                      (fun o => o.2.output.isSome) =
                    L.filter (fun o => o.2.output.isSome) := by
                intro L
                simp [List.filter_cons, RequestResult.empty]
              rw [hfilter]
              exact IH
          | some r =>
              have hres := getResult_of_some s now r hm
              have hrs : r.output.isSome = true := (hb _ (mapFind_mem hm)).2
              have hne : s.completedRequestResults ≠ [] := by
                intro hnil
                rw [hnil] at hm
                simp [mapFind] at hm
              have hstz : s.perfInfo.startTime ≠ 0 := by
                rcases hw with h | h
                · exact h
                · exact absurd h.1 hne
              have h1 : (getResult s now).1 = r := by rw [hres]
              have hfc : (getResult s now).2.perfInfo.framesCount =
                  s.perfInfo.framesCount + 1 := by rw [hres]
              have hls : (getResult s now).2.perfInfo.latencySum =
                  s.perfInfo.latencySum + (now - r.startTime) := by rw [hres]
              have hst : (getResult s now).2.perfInfo.startTime =
                  s.perfInfo.startTime := by rw [hres]
              have hfps : (getResult s now).2.perfInfo.FPS =
                  ((s.perfInfo.framesCount + 1 : ℚ)) * 1000 /
                    ((millisecondsOf (now - s.perfInfo.startTime) : ℚ)) := by rw [hres]
              have hbuf : (getResult s now).2.completedRequestResults =
                  mapErase s.completedRequestResults s.outputFrameId := by rw [hres]
              have hw' : Winv (getResult s now).2 := Or.inl (by rw [hst]; exact hstz)
              have hb' : bufferInv (getResult s now).2 := by
                intro kv hkv
                rw [hbuf] at hkv
                exact hb kv (mem_mapErase hkv)
              have IH := ih (getResult s now).2 hw' hb' hts
              rw [h1]
              simp only [Option.toList_some, List.singleton_append]
              have hfilter : ∀ L : List (Int × RequestResult),
                  ((now, r) :: L).filter (fun o => o.2.output.isSome) =
                    (now, r) :: L.filter (fun o => o.2.output.isSome) := by
                intro L
                simp [List.filter_cons, hrs]
              rw [hfilter]
              have hfin_st : (runWithObs (getResult s now).2 es).1.perfInfo.startTime =
                  s.perfInfo.startTime := by
                rw [IH.2.2.1 (by rw [hst]; exact hstz), hst]
              refine ⟨?_, ?_, ?_, ?_, ?_⟩
              · rw [List.length_cons, IH.1, hfc]
                omega
              · rw [latencyOfObs_cons, IH.2.1, hls]
                ring
              · intro h
                exact hfin_st
              · intro h
                exact absurd h (List.cons_ne_nil _ _)
              · intro tK rK hlast
                refine ⟨by rw [hfin_st]; exact hstz, ?_⟩
                cases hLf : (runWithObs (getResult s now).2 es).2.filter
                    (fun o => o.2.output.isSome) with
                | nil =>
                    rw [hLf] at hlast
                    simp only [List.getLast?_singleton, Option.some.injEq,
                      Prod.mk.injEq] at hlast
                    obtain ⟨htK, hrK⟩ := hlast
                    have hfin_fps :
                        (runWithObs (getResult s now).2 es).1.perfInfo.FPS =
                          (getResult s now).2.perfInfo.FPS := IH.2.2.2.1 hLf
                    rw [hfin_fps, hfps, hfin_st, ← htK]
                    norm_num
                | cons b L' =>
                    have hlast' : ((runWithObs (getResult s now).2 es).2.filter
                        (fun o => o.2.output.isSome)).getLast? = some (tK, rK) := by
                      rw [hLf]
                      rw [hLf, List.getLast?_cons_cons] at hlast
                      exact hlast
                    obtain ⟨h1f, h2f⟩ := IH.2.2.2.2 tK rK hlast'
                    rw [h2f, hfc, hLf]
                    simp only [List.length_cons]
                    push_cast
                    ring_nf

lemma applyEvent_startTime_stable (s : PipelineState) (e : Event)
    (h : s.perfInfo.startTime ≠ 0) :
    (applyEvent s e).1.perfInfo.startTime = s.perfInfo.startTime := by
  cases e with
  | submit now => exact (applyEvent_submit_perf s now).2.2.2 h
  | complete fid outcome => rw [applyEvent_complete_perf s fid outcome]
  | getResult now =>
      rw [applyEvent_getResult]
      cases hm : mapFind s.completedRequestResults s.outputFrameId with
      | none => rw [getResult_of_none s now hm]
      | some r => rw [getResult_of_some s now r hm]

lemma run_startTime_stable (es : List Event) (s : PipelineState)
    (h : s.perfInfo.startTime ≠ 0) :
    (runWithObs s es).1.perfInfo.startTime = s.perfInfo.startTime := by
  induction es generalizing s with
  | nil => rfl
  | cons e es ih =>
      rw [runWithObs_cons]
      rw [ih _ (by rw [applyEvent_startTime_stable s e h]; exact h)]
      exact applyEvent_startTime_stable s e h

lemma startTime_from_init (es : List Event) (s : PipelineState)
    (hpend : s.pending = []) (hbuf : s.completedRequestResults = [])
    (hst : s.perfInfo.startTime = 0) (hname : s.outputName ≠ "")
    (hidle : s.requestsPool.findIdleRequest.isSome = true)
    (ht : submitTimesPos es) :
    (runWithObs s es).1.perfInfo.startTime = firstSubmitTime es := by
  induction es generalizing s with
  | nil => exact hst
  | cons e es ih =>
      have hts := submitTimesPos_tail e es ht
      cases e with
      | submit t =>
          have hpos := submitTimesPos_head t es ht
          cases hf : s.requestsPool.findIdleRequest with
          | none => rw [hf] at hidle; simp at hidle
          | some r =>
              rw [runWithObs_cons, applyEvent_submit_some s t r hf]
              have hn' : ({ s with requestsPool := s.requestsPool.setRequestBusy r } :
                  PipelineState).outputName ≠ "" := hname
              obtain ⟨-, -, -, hstt, -⟩ := submitRequest_ok _ r t hn'
              have hz : ({ s with requestsPool := s.requestsPool.setRequestBusy r } :
                  PipelineState).perfInfo.startTime = 0 := hst
              rw [if_pos hz] at hstt
              rw [run_startTime_stable es _ (by rw [hstt]; omega), hstt]
              rfl
      | complete fid outcome =>
          have hfind : s.pending.find? (fun q => q.frameId == fid) = none := by
            rw [hpend]
            rfl
          rw [runWithObs_cons, applyEvent_complete_none s fid outcome hfind]
          exact ih s hpend hbuf hst hname hidle hts
      | getResult t =>
          have hm : mapFind s.completedRequestResults s.outputFrameId = none := by
            rw [hbuf]
            rfl
          rw [runWithObs_cons, applyEvent_getResult, getResult_of_none s t hm]
          exact ih s hpend hbuf hst hname hidle hts

/-- C7: from a fresh pipeline, over any trace with positive submission
timestamps: the frames counter equals the number K of successful
retrievals, the cumulative latency equals Σᵢ (rᵢ − tᵢ) over the retrieval
times rᵢ and the recorded submission start times tᵢ, the session start time
is the timestamp of the first submission, and after the last successful
retrieval (at time rK) the reported FPS equals
K · 1000 / elapsedMilliseconds(sessionStart → rK). -/
theorem perf_counters_correct (name : String) (psz : Nat) (es : List Event)
    (hname : name ≠ "") (hpsz : psz ≠ 0) (ht : submitTimesPos es) :
    ((runWithObs (initialState name psz) es).1.perfInfo.framesCount =
      (succRetrievals (initialState name psz) es).length) ∧
    ((runWithObs (initialState name psz) es).1.perfInfo.latencySum =
      latencyOfObs (succRetrievals (initialState name psz) es)) ∧
    ((runWithObs (initialState name psz) es).1.perfInfo.startTime =
      firstSubmitTime es) ∧
    (∀ tK rK, (succRetrievals (initialState name psz) es).getLast? =
        some (tK, rK) →
      (runWithObs (initialState name psz) es).1.perfInfo.FPS =
        (((succRetrievals (initialState name psz) es).length : ℚ)) * 1000 /
          ((millisecondsOf (tK - firstSubmitTime es) : ℚ))) := by
  have hw : Winv (initialState name psz) := Or.inr ⟨rfl, rfl⟩
  have hb : bufferInv (initialState name psz) := by
    intro kv hkv
    simp [initialState] at hkv
  have hidle : (initialState name psz).requestsPool.findIdleRequest.isSome = true := by
    cases psz with
    | zero => exact absurd rfl hpsz
    | succ n => rfl
  have hgen := perf_general es (initialState name psz) hw hb ht
  have hst := startTime_from_init es (initialState name psz) rfl rfl rfl hname hidle ht
  have hfc0 : (initialState name psz).perfInfo.framesCount = 0 := rfl
  have hls0 : (initialState name psz).perfInfo.latencySum = 0 := rfl
  refine ⟨?_, ?_, hst, ?_⟩
  · rw [succRetrievals, hgen.1, hfc0]
    omega
  · rw [succRetrievals, hgen.2.1, hls0]
    omega
  · intro tK rK hlast
    rw [succRetrievals] at hlast
    obtain ⟨h1, h2⟩ := hgen.2.2.2.2 tK rK hlast
    rw [succRetrievals, h2, hfc0, hst]
    norm_num

/-- The spec's out-of-order scenario trace: two submissions, completions in
reverse order, two retrievals. -/
def perfTrace : List Event :=
  [Event.submit 1000000000, Event.submit 2000000000,
   Event.complete 1 (Except.ok 7), Event.complete 0 (Except.ok 8),
   Event.getResult 5000000000, Event.getResult 6000000000]

/-- Witness for C7 on a concrete trace: K = 2 retrievals with latencies
4 s + 4 s = 8·10⁹ ns, session start 10⁹ ns, and FPS 2·1000/5000 = 2/5. -/
theorem perf_counters_correct_witness :
    submitTimesPos perfTrace ∧
    (runWithObs (initialState "out" 2) perfTrace).1.perfInfo.framesCount = 2 ∧
    (runWithObs (initialState "out" 2) perfTrace).1.perfInfo.latencySum =
      8000000000 ∧
    (runWithObs (initialState "out" 2) perfTrace).1.perfInfo.startTime =
      1000000000 ∧
    (runWithObs (initialState "out" 2) perfTrace).1.perfInfo.FPS = 2 / 5 := by
  have hts : submitTimesPos perfTrace :=
    ⟨by norm_num, by norm_num, trivial⟩
  have h := perf_counters_correct "out" 2 perfTrace (by decide) (by decide) hts
  refine ⟨hts, h.1.trans (by decide), h.2.1.trans (by decide),
    h.2.2.1.trans (by decide), ?_⟩
  have h4 := h.2.2.2 6000000000 ⟨1, some 7, 2000000000⟩ (by decide)
  refine h4.trans ?_
  have hlen : (succRetrievals (initialState "out" 2) perfTrace).length = 2 := by decide
  have hms : millisecondsOf (6000000000 - firstSubmitTime perfTrace) = 5000 := by decide
  rw [hlen, hms]
  norm_num
